import Mathlib

/-!
Verification development for the predictive-maintenance ingestion subsystem
(`backend/connectors/data_connector.py`, `backend/main.py` connector endpoints,
`backend/app/main.py` prediction endpoint, `backend/models/data_processor.py`).

The Python code is shallowly embedded: pure computations become Lean
functions over `Nat`/`Int`/`ℚ`; Python `float` (IEEE-754 binary64) values are
represented as the exact rational they denote, with an explicit
round-to-nearest-even rounding function applied after each arithmetic
operation, mirroring IEEE semantics; fallible paths return `Option`/`Except`.

Rational arithmetic is written with kernel-computable primitives
(`Rat.divInt`, `Rat.num`, `Rat.den`) so that every definition evaluates on
concrete inputs by `decide`.
-/

set_option maxRecDepth 100000

namespace PredMaint

/-! ## Computable rational arithmetic primitives -/

/-- Rational addition, expressed through `Rat.divInt` so it evaluates. -/
def qadd (a b : ℚ) : ℚ := Rat.divInt (a.num * b.den + b.num * a.den) (a.den * b.den)

/-- Rational subtraction. -/
def qsub (a b : ℚ) : ℚ := Rat.divInt (a.num * b.den - b.num * a.den) (a.den * b.den)

/-- Rational multiplication. -/
def qmul (a b : ℚ) : ℚ := Rat.divInt (a.num * b.num) (a.den * b.den)

/-- Rational division (`qdiv a 0 = 0`, matching field conventions). -/
def qdiv (a b : ℚ) : ℚ := Rat.divInt (a.num * b.den) (a.den * b.num)

/-- Absolute value of a rational. -/
def qabs (q : ℚ) : ℚ := if q < 0 then Rat.divInt (-q.num) q.den else q

/-- Integer cast to a rational. -/
def qofInt (m : ℤ) : ℚ := Rat.divInt m 1

/-! ## Exact model of IEEE-754 binary64 ("Python float") arithmetic

Every finite binary64 value is a rational of the form `m * 2^e`; arithmetic
on doubles is exact rational arithmetic followed by rounding to nearest,
ties to even, at 53 bits of precision (subnormals below `2^-1022`,
overflow to infinity at `2^1024`). -/

/-- Integer power of two as a rational, for signed exponents. -/
def pow2z (c : ℤ) : ℚ :=
  if 0 ≤ c then Rat.divInt (Int.ofNat (2 ^ c.toNat)) 1
  else Rat.divInt 1 (Int.ofNat (2 ^ (-c).toNat))

/-- Fuelled floor-log2 on naturals; with fuel ≥ n the result is exact for n ≥ 1. -/
def nlog2 : Nat → Nat → Nat
  | 0, _ => 0
  | f + 1, n => if n < 2 then 0 else nlog2 f (n / 2) + 1

/-- Floor of log2 of a positive natural: `2^(natLog2 n) ≤ n < 2^(natLog2 n + 1)`. -/
def natLog2 (n : Nat) : Nat := nlog2 n n

/-- For a positive rational `q`, the integer `e` with `2^e ≤ q < 2^(e+1)`. -/
def qilog2 (q : ℚ) : ℤ :=
  let a : ℤ := natLog2 q.num.natAbs
  let b : ℤ := natLog2 q.den
  if pow2z (a - b) ≤ q then a - b else a - b - 1

/-- Round a rational to an integer, nearest, ties to even. -/
def rhe (x : ℚ) : ℤ :=
  let f := ⌊x⌋
  let r := qsub x (qofInt f)
  if r < Rat.divInt 1 2 then f
  else if Rat.divInt 1 2 < r then f + 1
  else if f % 2 = 0 then f else f + 1

/-- Round a rational to the binary64 grid (round to nearest, ties to even,
53-bit significand, subnormals below 2^-1022).  Overflow past `2^1024` is
detected by `fpRound?`. -/
def fpRound (q : ℚ) : ℚ :=
  if q = 0 then 0
  else
    let aq := qabs q
    let e := qilog2 aq
    let qe : ℤ := if e < -1022 then -1074 else e - 52
    let m := rhe (qmul aq (pow2z (-qe)))
    let v := qmul (qofInt m) (pow2z qe)
    if q < 0 then Rat.divInt (-v.num) v.den else v

/-- Binary64 rounding returning `none` when the true IEEE result is ±infinity. -/
def fpRound? (q : ℚ) : Option ℚ :=
  let v := fpRound q
  if pow2z 1024 ≤ qabs v then none else some v

/-- Binary64 addition (exact sum, then rounding). -/
def fadd (a b : ℚ) : ℚ := fpRound (qadd a b)

/-- Binary64 subtraction. -/
def fsub (a b : ℚ) : ℚ := fpRound (qsub a b)

/-- Binary64 multiplication. -/
def fmul (a b : ℚ) : ℚ := fpRound (qmul a b)

/-- Python `int()` on a float: truncation toward zero. -/
def pytrunc (q : ℚ) : ℤ := if 0 ≤ q then ⌊q⌋ else ⌈q⌉

/-! ## Rule-based prediction fallback (`backend/app/main.py`, `run_prediction`)

When `./models/predictive_model.pkl` does not exist the endpoint computes

    failure_probability = 0.0
    if temperature > 85: failure_probability += 0.4
    if vibration > 5:    failure_probability += 0.4
    remaining_days = int(30 * (1 - failure_probability))
    recommended_action = "maintenance" if failure_probability > 0.6 else "monitor"

All literals and operations are binary64; the embedding uses the exact
rational value of each double literal (`fpRound` of the decimal value) and
rounds after each arithmetic operation exactly as IEEE-754 prescribes. -/

def run_prediction_fallback (temperature vibration : ℚ) : ℚ × ℤ × String :=
  let p0 : ℚ := 0
  let p1 := if 85 < temperature then fadd p0 (fpRound (Rat.divInt 2 5)) else p0
  let p2 := if 5 < vibration then fadd p1 (fpRound (Rat.divInt 2 5)) else p1
  let remaining := pytrunc (fmul 30 (fsub 1 p2))
  (p2, remaining, if fpRound (Rat.divInt 3 5) < p2 then "maintenance" else "monitor")

/-! ## Readings (`DataConnector.process_reading`)

A reading is a Python dict; we model it as an insertion-ordered association
list with the update semantics of dict assignment (overwrite in place if the
key exists, append otherwise).  Values are strings, numbers (exact rationals
denoting finite floats), non-finite floats, or booleans. -/

/-- A value stored in a reading: string, finite float (exact rational),
non-finite float (NaN or ±inf bit patterns), or boolean. -/
inductive PVal where
  | str (s : String)
  | num (q : ℚ)
  | nonfinite
  | boolv (b : Bool)
deriving DecidableEq

/-- Python dict assignment `m[k] = v`: overwrite in place, else append. -/
def dupdate (m : List (String × PVal)) (k : String) (v : PVal) : List (String × PVal) :=
  if m.any (fun p => p.1 = k) then
    m.map (fun p => if p.1 = k then (k, v) else p)
  else m ++ [(k, v)]

/-- The body of `DataConnector.process_reading` for dict data: start from
`{"equipment_id": ..., "timestamp": ...}` and `reading.update(data)`.
(The non-dict branch, which stores the datum under the key `"value"`, is not
exercised by any connector in the repository and is not modelled.) -/
def process_reading (equipment_id timestamp : String) (data : List (String × PVal)) :
    List (String × PVal) :=
  data.foldl (fun m p => dupdate m p.1 p.2)
    [("equipment_id", .str equipment_id), ("timestamp", .str timestamp)]

/-! ## Modbus register decoding (`ModbusConnector`)

`_decode_ieee` packs the two 16-bit register words with `array.array('H')`
— machine-native byte order, i.e. little-endian within each word on the
x86-64/ARM64 hosts this code runs on — and then unpacks the four bytes
big-endian with `struct.unpack('>f')`.  The resulting IEEE-754 single is
widened to a Python float (binary64), which is exact. -/

/-- Value of an IEEE-754 single-precision bit pattern (as a Python float). -/
def float32val (bv : Nat) : PVal :=
  let sign : ℕ := bv / 2 ^ 31 % 2
  let ex : ℕ := bv / 2 ^ 23 % 256
  let frac : ℕ := bv % 2 ^ 23
  if ex = 255 then .nonfinite
  else
    let mag : ℚ :=
      if ex = 0 then qmul (qofInt (Int.ofNat frac)) (pow2z (-149))
      else qmul (qofInt (Int.ofNat (2 ^ 23 + frac))) (pow2z ((ex : ℤ) - 150))
    .num (if sign = 1 then qmul (-1) mag else mag)

/-- `ModbusConnector._decode_ieee(register1, register2)` on a little-endian
host: `array.array('H', [r1, r2]).tobytes()` emits each word low-byte first,
and `struct.unpack('>f', ...)` reads the four bytes big-endian. -/
def decode_ieee (r1 r2 : Nat) : PVal :=
  float32val ((r1 % 256) * 2 ^ 24 + (r1 / 256 % 256) * 2 ^ 16
    + (r2 % 256) * 2 ^ 8 + (r2 / 256 % 256))

/-- Modelled from the spec: "float32 = IEEE-754 big-endian reconstruction
from two consecutive 16-bit words" — word 0 is the high word and each word
is big-endian, so the bit pattern is `r1 <<< 16 ||| r2`. -/
def decode_ieee_bigendian (r1 r2 : Nat) : PVal :=
  float32val ((r1 % 2 ^ 16) * 2 ^ 16 + r2 % 2 ^ 16)

/-- Multiply a decoded value by the register's `scaling` factor in binary64
(`value = value * scaling`); only applied on the holding/input paths.
Overflow to infinity yields a non-finite float. -/
def pvscale (v : PVal) (scaling : ℚ) : PVal :=
  match v with
  | .num q =>
    match fpRound? (qmul q scaling) with
    | some r => .num r
    | none => .nonfinite
  | other => other

/-- Result object returned by a pymodbus read call: the error flag plus the
`registers` (holding/input) and `bits` (coil/discrete) payloads. -/
structure MbResult where
  isError : Bool
  registers : List Nat
  bits : List Bool
deriving DecidableEq

/-- A Modbus device, as the code sees it: one read function per register
kind, taking the address and the count. -/
structure Device where
  holding : Nat → Nat → MbResult
  input : Nat → Nat → MbResult
  coils : Nat → Nat → MbResult
  discrete : Nat → Nat → MbResult

/-- One entry of the `registers` config map, with the defaults
`config.get(...)` supplies in `_read_once`. -/
structure RegSpec where
  rtype : String := "holding"
  address : Nat := 0
  count : Nat := 1
  data_type : String := "float"
  scaling : ℚ := 1
deriving DecidableEq

/-- Outcome of processing one named register in `ModbusConnector._read_once`:
the field is silently skipped (`continue`), the whole read raises
(uncaught `IndexError` on an empty payload), or a value is stored. -/
inductive FieldOutcome where
  | skip
  | fatal
  | val (v : PVal)
deriving DecidableEq

/-- Dispatch of `_read_once` on `register_type` (unknown kinds log a warning
and `continue`, modelled as `none`). -/
def readRegister (dev : Device) (s : RegSpec) : Option MbResult :=
  if s.rtype = "holding" then some (dev.holding s.address s.count)
  else if s.rtype = "input" then some (dev.input s.address s.count)
  else if s.rtype = "coil" then some (dev.coils s.address s.count)
  else if s.rtype = "discrete" then some (dev.discrete s.address s.count)
  else none

/-- The per-register body of `ModbusConnector._read_once`: read, skip on
error, then decode by `data_type`.  A `float`/`int32` with fewer than two
returned registers falls through to the final `else` branch, which reads
`registers[0]` — exactly like `int16`; `registers[0]` (or `bits[0]`) on an
empty payload raises `IndexError`, aborting the whole read. -/
def decodeField (dev : Device) (s : RegSpec) : FieldOutcome :=
  match readRegister dev s with
  | none => .skip
  | some r =>
    if r.isError then .skip
    else if s.rtype = "holding" ∨ s.rtype = "input" then
      if s.data_type = "float" ∧ 2 ≤ r.registers.length then
        .val (pvscale (decode_ieee (r.registers.getD 0 0) (r.registers.getD 1 0)) s.scaling)
      else if s.data_type = "int32" ∧ 2 ≤ r.registers.length then
        .val (pvscale
          (.num (qofInt (Int.ofNat ((r.registers.getD 0 0) * 2 ^ 16 + r.registers.getD 1 0))))
          s.scaling)
      else
        -- the `int16` branch and the default branch both take `registers[0]`
        match r.registers with
        | [] => .fatal
        | x :: _ => .val (pvscale (.num (qofInt (Int.ofNat x))) s.scaling)
    else
      match r.bits with
      | [] => .fatal
      | b :: _ => .val (.boolv b)

/-- Accumulation of `readings[name] = value` over the `registers` config map. -/
def modbusFieldsAux (dev : Device) :
    List (String × RegSpec) → List (String × PVal) → Except Unit (List (String × PVal))
  | [], acc => .ok acc
  | (n, s) :: rest, acc =>
    match decodeField dev s with
    | .fatal => .error ()
    | .skip => modbusFieldsAux dev rest acc
    | .val v => modbusFieldsAux dev rest (dupdate acc n v)

/-- `ModbusConnector._read_once`: decode every configured register, then
unconditionally build and emit one reading via `process_reading` (even when
zero fields decoded).  `.error` models an uncaught exception escaping
`_read_once`. -/
def modbus_read_once (equipment_id timestamp : String) (dev : Device)
    (cfg : List (String × RegSpec)) : Except Unit (List (String × PVal)) :=
  (modbusFieldsAux dev cfg []).map (process_reading equipment_id timestamp)

/-! ## Connector supervisor (`backend/main.py`)

`active_connectors` is a process-wide dict keyed by equipment id; we model
it as an insertion-ordered association list whose keys stay distinct.  A
connector is summarized by its factory class name and its `connected` /
`loop` flags. -/

/-- A connector as the supervisor sees it. -/
structure Conn where
  ctype : String
  connected : Bool
  loop : Bool
deriving DecidableEq

/-- The supervisor registry `active_connectors`. -/
def Registry := List (String × Conn)

/-- Distinctness of registry keys (automatic for a Python dict). -/
def NodupKeys (st : List (String × Conn)) : Prop := (st.map Prod.fst).Nodup

/-- `create_connector`'s dispatch table, by factory class name; `none` is the
`ValueError` raised for an unknown type.  (`pymodbus`/`opcua` are taken as
installed, so all four variants are available.) -/
def connector_class (connector_type : String) : Option String :=
  if connector_type = "csv" then some "CSVFileConnector"
  else if connector_type = "api" then some "APIConnector"
  else if connector_type = "modbus" then some "ModbusConnector"
  else if connector_type = "opcua" then some "OPCUAConnector"
  else none

/-- Effect of `connector.disconnect()` on the connector's own flags:
`self.connected = False; self.loop = False` (then `thread.join(timeout=2)`).
All variants share this shape. -/
def disconnectFlags (c : Conn) : Conn := { c with connected := false, loop := false }

/-- Result of the `stop_connector` endpoint. -/
structure StopResult where
  st : List (String × Conn)
  stopped : Option Conn
  /-- Whether a still-running polling thread failed to exit within the 2 s
  `join` bound.  `thread.join(timeout=2)` returns no value and the code
  never inspects thread liveness afterwards, so nothing downstream depends
  on this field. -/
  timedOut : Bool
  /-- Messages logged at warning level during the stop (there are none:
  `disconnect` logs only an info line, unconditionally). -/
  warnings : List String
  ok : Bool

/-- `stop_connector(equipment_id)`: 404 when absent; otherwise
`connector.disconnect()` then `del active_connectors[equipment_id]`.
`exitsInTime` says whether the background thread exits within the 2 s join
bound; the code ignores the outcome either way. -/
def stop_connector (st : List (String × Conn)) (equipment_id : String)
    (exitsInTime : Bool) : StopResult :=
  match st.lookup equipment_id with
  | none => { st := st, stopped := none, timedOut := false, warnings := [], ok := false }
  | some c =>
    { st := st.filter (fun p => ¬ p.1 = equipment_id),
      stopped := some (disconnectFlags c),
      timedOut := c.loop && !exitsInTime,
      warnings := [],
      ok := true }

/-- `setup_connector(config)`: stop and deregister any existing connector
for the same equipment id first, then build the new connector, register the
callback, `connect()` (assumed to succeed — a raise becomes an HTTP 500
outside the claims' scope), start `read_data(loop=True)`, and store the
connector.  Returns the new registry, the stopped old connector if any, and
whether the setup succeeded (an unknown type raises `ValueError` after the
old connector is already gone). -/
def setup_connector (st : List (String × Conn)) (equipment_id connector_type : String) :
    (List (String × Conn)) × Option Conn × Bool :=
  let prev :=
    if (st.lookup equipment_id).isSome then stop_connector st equipment_id true
    else { st := st, stopped := none, timedOut := false, warnings := [], ok := true }
  match connector_class connector_type with
  | none => (prev.st, prev.stopped, false)
  | some cls => (prev.st ++ [(equipment_id, ⟨cls, true, true⟩)], prev.stopped, true)

/-- `list_connectors()`: one row per registry entry. -/
def list_connectors (st : List (String × Conn)) : List (String × String × String) :=
  st.map (fun p => (p.1, p.2.ctype, if p.2.connected then "running" else "stopped"))

/-! ## Background polling loops

One iteration of each connector's `_read_loop` body (the part between two
inter-poll sleeps), with the registered callback as a parameter (it may
raise, e.g. on a persistence-sink failure).  `Except.error` means an
exception escapes the iteration — and hence the whole polling thread, since
nothing above it catches. -/

/-- Failure modes of a loop iteration. -/
inductive LoopErr where
  | callback (msg : String)
  | indexOutOfBounds
deriving DecidableEq

/-- One iteration of `CSVFileConnector._read_loop`: fetch `rows[row_index]`
(an `IndexError` on an empty file), build the reading and invoke the
callback via `process_reading` — with no `try`/`except` around it — then
advance `row_index = (row_index + 1) % num_rows`.  Rows are modelled after
the per-cell `float(value)` conversion, whose `ValueError` handler makes it
total.  Returns the next row index. -/
def csv_loop_iter (equipment_id timestamp : String)
    (cb : List (String × PVal) → Except String Unit)
    (rows : List (List (String × PVal))) (row_index : Nat) : Except LoopErr Nat :=
  match rows.get? row_index with
  | none => .error .indexOutOfBounds
  | some row =>
    match cb (process_reading equipment_id timestamp row) with
    | .error e => .error (.callback e)
    | .ok _ => .ok ((row_index + 1) % rows.length)

/-- One iteration of `APIConnector._read_loop` (and likewise the Modbus and
OPC-UA loops): `self._read_once()` inside `try: ... except Exception: log`,
so any failure of the read or of the callback it invokes is swallowed and
the loop continues. -/
def api_loop_iter (readOnceResult : Except String (List (List (String × PVal)))) :
    Except LoopErr Unit :=
  match readOnceResult with
  | .error _ => .ok ()   -- logged, loop continues
  | .ok _ => .ok ()

/-! ## Data processor rolling features (`DataProcessor._engineer_features`)

For a numeric column the code computes
`df[col].rolling(window=5, min_periods=1).mean()` /
`.std().fillna(0)` / `.min()` / `.max()`, but only when `len(df) > 1` and
`len(df) >= 5`.  At row `i` the window is the last `min(i+1, 5)` values.
The pandas statistics are double-precision; the claims' instances are exact,
so the window statistics are modelled as exact rationals (the sample
standard deviation is returned as `some q` only when it is rational —
`none` marks an irrational value this exact model leaves unevaluated; the
single-sample case is `NaN` in pandas, turned into `0` by `.fillna(0)`). -/

/-- The rolling window ending at index `i` (window 5, min_periods 1). -/
def windowAt (xs : List ℚ) (i : Nat) : List ℚ := (xs.take (i + 1)).drop (i + 1 - 5)

/-- Sum of a list of rationals. -/
def qsum (xs : List ℚ) : ℚ := xs.foldl qadd 0

/-- Rolling mean at index `i` (pandas `rolling(window=5, min_periods=1).mean()`). -/
def rolling_mean (xs : List ℚ) (i : Nat) : ℚ :=
  let w := windowAt xs i
  qdiv (qsum w) (qofInt (Int.ofNat w.length))

/-- Rolling sample variance (ddof = 1) at index `i`; `none` is pandas' `NaN`
for a window of fewer than two samples. -/
def rolling_var (xs : List ℚ) (i : Nat) : Option ℚ :=
  let w := windowAt xs i
  if w.length < 2 then none
  else
    let m := rolling_mean xs i
    some (qdiv (qsum (w.map (fun x => qmul (qsub x m) (qsub x m))))
      (qofInt (Int.ofNat (w.length - 1))))

/-- Exact rational square root, when it exists. -/
def ratSqrt? (q : ℚ) : Option ℚ :=
  let n := Int.toNat q.num
  let rn := Nat.sqrt n
  let rd := Nat.sqrt q.den
  if 0 ≤ q.num ∧ rn * rn = n ∧ rd * rd = q.den then some (Rat.divInt (Int.ofNat rn) (Int.ofNat rd))
  else none

/-- Rolling standard deviation at index `i` after `.fillna(0)`: the
single-sample `NaN` becomes `0`; otherwise the square root of the sample
variance (`some` exactly when rational). -/
def rolling_std (xs : List ℚ) (i : Nat) : Option ℚ :=
  match rolling_var xs i with
  | none => some 0
  | some v => ratSqrt? v

/-- The `<col>_rolling_mean` column, present only under the code's
`len(df) > 1` and `len(df) >= 5` guards. -/
def rolling_mean_col (xs : List ℚ) : Option (List ℚ) :=
  if 1 < xs.length ∧ 5 ≤ xs.length then
    some ((List.range xs.length).map (rolling_mean xs))
  else none

/-- The `<col>_rolling_std` column (same guards). -/
def rolling_std_col (xs : List ℚ) : Option (List (Option ℚ)) :=
  if 1 < xs.length ∧ 5 ≤ xs.length then
    some ((List.range xs.length).map (rolling_std xs))
  else none

/-! ## Dictionary lemmas -/

theorem lookup_none_of_not_mem {β : Type} (l : List (String × β)) (k : String)
    (h : ¬ k ∈ l.map Prod.fst) : l.lookup k = none := by
  induction l with
  | nil => rfl
  | cons p t ih =>
    rcases p with ⟨a, w⟩
    have h1 : k ≠ a := by
      intro hk
      exact h (by simp [hk])
    have h2 : ¬ k ∈ t.map Prod.fst := by
      intro hk
      exact h (by simp [hk])
    rw [List.lookup_cons, beq_false_of_ne h1]
    exact ih h2

theorem lookup_append_or {β : Type} (xs ys : List (String × β)) (k : String) :
    (xs ++ ys).lookup k = (xs.lookup k).or (ys.lookup k) := by
  induction xs with
  | nil => rfl
  | cons p t ih =>
    rcases p with ⟨a, w⟩
    by_cases hk : k = a
    · subst hk
      rw [List.cons_append, List.lookup_cons, List.lookup_cons, beq_self_eq_true]
      rfl
    · rw [List.cons_append, List.lookup_cons, List.lookup_cons, beq_false_of_ne hk]
      exact ih

theorem lookup_map_overwrite (m : List (String × PVal)) (k : String) (v : PVal)
    (h : m.any (fun p => decide (p.1 = k)) = true) :
    (m.map (fun p => if p.1 = k then (k, v) else p)).lookup k = some v := by
  induction m with
  | nil => simp at h
  | cons p t ih =>
    rcases p with ⟨a, w⟩
    by_cases hp : a = k
    · subst hp
      rw [List.map_cons, if_pos rfl, List.lookup_cons, beq_self_eq_true]
    · have hk : k ≠ a := fun hk => hp hk.symm
      have ht : t.any (fun p => decide (p.1 = k)) = true := by
        simpa [hp] using h
      rw [List.map_cons, if_neg hp, List.lookup_cons, beq_false_of_ne hk]
      exact ih ht

theorem lookup_dupdate_self (m : List (String × PVal)) (k : String) (v : PVal) :
    (dupdate m k v).lookup k = some v := by
  unfold dupdate
  split
  · rename_i hany
    exact lookup_map_overwrite m k v hany
  · rename_i hany
    have hm : m.lookup k = none := by
      refine lookup_none_of_not_mem m k ?_
      intro hk
      rcases List.mem_map.mp hk with ⟨p, hp, hfst⟩
      exact hany (List.any_eq_true.mpr ⟨p, hp, by simp [hfst]⟩)
    rw [lookup_append_or, hm, List.lookup_cons, beq_self_eq_true]
    rfl

theorem lookup_map_preserve (m : List (String × PVal)) (k k' : String) (v : PVal)
    (hne : k ≠ k') :
    (m.map (fun p => if p.1 = k' then (k', v) else p)).lookup k = m.lookup k := by
  induction m with
  | nil => rfl
  | cons p t ih =>
    rcases p with ⟨a, w⟩
    by_cases hp : a = k'
    · subst hp
      rw [List.map_cons, if_pos rfl, List.lookup_cons, List.lookup_cons,
        beq_false_of_ne hne]
      exact ih
    · by_cases hk : k = a
      · subst hk
        rw [List.map_cons, if_neg hp, List.lookup_cons, List.lookup_cons, beq_self_eq_true]
      · rw [List.map_cons, if_neg hp, List.lookup_cons, List.lookup_cons,
          beq_false_of_ne hk]
        exact ih

theorem lookup_dupdate_other (m : List (String × PVal)) (k k' : String) (v : PVal)
    (hne : k ≠ k') : (dupdate m k' v).lookup k = m.lookup k := by
  unfold dupdate
  split
  · exact lookup_map_preserve m k k' v hne
  · have hy : ([(k', v)] : List (String × PVal)).lookup k = none := by
      rw [List.lookup_cons, beq_false_of_ne hne]
      rfl
    rw [lookup_append_or, hy, Option.or_none]

theorem lookup_foldl_dupdate (d : List (String × PVal)) (m0 : List (String × PVal))
    (k : String) (hd : (d.map Prod.fst).Nodup) :
    (d.foldl (fun m p => dupdate m p.1 p.2) m0).lookup k = (d.lookup k).or (m0.lookup k) := by
  induction d generalizing m0 with
  | nil => rfl
  | cons p t ih =>
    rcases p with ⟨a, w⟩
    have ha : ¬ a ∈ t.map Prod.fst := (List.nodup_cons.mp (by simpa using hd)).1
    have ht : (t.map Prod.fst).Nodup := (List.nodup_cons.mp (by simpa using hd)).2
    have step : (((a, w) :: t).foldl (fun m q => dupdate m q.1 q.2) m0)
        = t.foldl (fun m q => dupdate m q.1 q.2) (dupdate m0 a w) := rfl
    by_cases hk : k = a
    · subst hk
      have htnone : t.lookup k = none := lookup_none_of_not_mem t k ha
      rw [step, ih _ ht, htnone, lookup_dupdate_self, List.lookup_cons, beq_self_eq_true]
      rfl
    · rw [step, ih _ ht, lookup_dupdate_other m0 k a w hk, List.lookup_cons,
        beq_false_of_ne hk]

theorem key_ne_of_lookup_none {β : Type} (l : List (String × β)) (k : String)
    (h : l.lookup k = none) : ∀ p ∈ l, p.1 ≠ k := by
  induction l with
  | nil => intro p hp; cases hp
  | cons q t ih =>
    rcases q with ⟨a, w⟩
    by_cases hk : k = a
    · rw [List.lookup_cons, beq_iff_eq.mpr hk] at h
      cases h
    · intro p hp
      rcases List.mem_cons.mp hp with hp | hp
      · subst hp
        exact fun hh => hk hh.symm
      · rw [List.lookup_cons, beq_false_of_ne hk] at h
        exact ih h p hp

/-! ## Supervisor lemmas -/

theorem setup_on_fresh (q : List (String × Conn)) (E ty cls : String) (c : Conn)
    (hq : ∀ p ∈ q, p.1 ≠ E) (hcls : connector_class ty = some cls) :
    setup_connector (q ++ [(E, c)]) E ty
      = (q ++ [(E, ⟨cls, true, true⟩)], some ⟨c.ctype, false, false⟩, true) := by
  have hqmem : ¬ E ∈ q.map Prod.fst := by
    intro hE
    rcases List.mem_map.mp hE with ⟨p, hp, hfst⟩
    exact hq p hp hfst
  have hlook : (q ++ [(E, c)]).lookup E = some c := by
    rw [lookup_append_or, lookup_none_of_not_mem q E hqmem, List.lookup_cons,
      beq_self_eq_true]
    rfl
  have hfilter : (q ++ [(E, c)]).filter (fun p => ¬ p.1 = E) = q := by
    rw [List.filter_append]
    have h1 : q.filter (fun p => ¬ p.1 = E) = q :=
      List.filter_eq_self.mpr fun p hp => decide_eq_true (hq p hp)
    have h2 : ([(E, c)] : List (String × Conn)).filter (fun p => ¬ p.1 = E) = [] := by
      simp
    rw [h1, h2, List.append_nil]
  unfold setup_connector stop_connector
  rw [hlook]
  simp [hcls, hfilter, disconnectFlags]
  intro a b hab
  exact hq (a, b) hab

theorem stop_core (st : List (String × Conn)) (E : String) (c : Conn) (t : Bool)
    (h : st.lookup E = some c) :
    stop_connector st E t =
      { st := st.filter (fun p => ¬ p.1 = E), stopped := some ⟨c.ctype, false, false⟩,
        timedOut := c.loop && !t, warnings := [], ok := true } := by
  unfold stop_connector
  rw [h]
  rfl

/-- C1: the supervisor registry holds at most one connector entry per
equipment id: `setup(E, typeA)` followed by `setup(E, typeB)` leaves exactly
one `list()` row for `E`, of type B and running, the connector created for
type A has been disconnected (both liveness flags cleared), and the registry
keys remain distinct. -/
theorem supervisor_at_most_one_connector (st : List (String × Conn)) (E a b ca cb : String)
    (hnodup : NodupKeys st)
    (ha : connector_class a = some ca) (hb : connector_class b = some cb) :
    ((list_connectors (setup_connector (setup_connector st E a).1 E b).1).filter
        (fun row => row.1 = E) = [(E, cb, "running")]) ∧
    (setup_connector (setup_connector st E a).1 E b).2.1 = some ⟨ca, false, false⟩ ∧
    NodupKeys (setup_connector (setup_connector st E a).1 E b).1 := by
  -- whatever the initial registry held for `E`, after the first setup the
  -- registry is an `E`-free prefix followed by the fresh type-A connector
  obtain ⟨q, hq, hqnodup, hst1⟩ :
      ∃ q, (∀ p ∈ q, p.1 ≠ E) ∧ (q.map Prod.fst).Nodup ∧
        (setup_connector st E a).1 = q ++ [(E, (⟨ca, true, true⟩ : Conn))] := by
    cases hcase : st.lookup E with
    | none =>
      refine ⟨st, key_ne_of_lookup_none st E hcase, hnodup, ?_⟩
      unfold setup_connector
      rw [hcase]
      simp only [Option.isSome_none, Bool.false_eq_true, if_neg, ha]
      simp
    | some c0 =>
      refine ⟨st.filter (fun p => ¬ p.1 = E), ?_, ?_, ?_⟩
      · intro p hp
        have := List.of_mem_filter hp
        simpa using this
      · exact ((List.filter_sublist st).map Prod.fst).nodup hnodup
      · unfold setup_connector
        rw [hcase, stop_core st E c0 true hcase, ha]
        simp
  have hmain := setup_on_fresh q E b cb (⟨ca, true, true⟩ : Conn) hq hb
  rw [hst1, hmain]
  refine ⟨?_, rfl, ?_⟩
  · -- the rows for `E` in `list()` reduce to the single fresh type-B row
    unfold list_connectors
    rw [List.map_append, List.filter_append]
    have h1 : (q.map (fun p =>
        (p.1, p.2.ctype, if p.2.connected then "running" else "stopped"))).filter
          (fun row => row.1 = E) = [] := by
      refine List.filter_eq_nil_iff.mpr ?_
      intro row hrow
      rcases List.mem_map.mp hrow with ⟨p, hp, hrow'⟩
      simp only [← hrow']
      simpa using hq p hp
    rw [h1, List.nil_append]
    simp
  · unfold NodupKeys
    rw [List.map_append]
    refine List.Nodup.append hqnodup (List.nodup_singleton E) ?_
    intro x hx hx'
    rcases List.mem_map.mp hx with ⟨p, hp, hfst⟩
    rcases List.mem_singleton.mp hx' with rfl
    exact hq p hp hfst

theorem supervisor_at_most_one_connector_witness :
    NodupKeys [] ∧ connector_class "csv" = some "CSVFileConnector" ∧
    connector_class "api" = some "APIConnector" ∧
    (((list_connectors (setup_connector (setup_connector [] "EQ1" "csv").1 "EQ1" "api").1).filter
        (fun row => row.1 = "EQ1") = [("EQ1", "APIConnector", "running")]) ∧
     (setup_connector (setup_connector [] "EQ1" "csv").1 "EQ1" "api").2.1
        = some ⟨"CSVFileConnector", false, false⟩ ∧
     NodupKeys (setup_connector (setup_connector [] "EQ1" "csv").1 "EQ1" "api").1) :=
  ⟨List.nodup_nil, rfl, rfl,
    supervisor_at_most_one_connector [] "EQ1" "csv" "api" "CSVFileConnector" "APIConnector"
      List.nodup_nil rfl rfl⟩

/-- C7 counterexample: stopping a connector whose polling thread does not
exit within the 2 s `join` bound produces no warning at all — `timedOut`
holds, yet the warning list is empty, the call reports success, and the
registry entry is removed — refuting the claim that the timeout is
"reported as a ShutdownTimeout warning rather than silently swallowed". -/
theorem stop_timeout_not_reported :
    (stop_connector [("EQ1", ⟨"CSVFileConnector", true, true⟩)] "EQ1" false).timedOut = true ∧
    (stop_connector [("EQ1", ⟨"CSVFileConnector", true, true⟩)] "EQ1" false).warnings = [] ∧
    (stop_connector [("EQ1", ⟨"CSVFileConnector", true, true⟩)] "EQ1" false).ok = true ∧
    (stop_connector [("EQ1", ⟨"CSVFileConnector", true, true⟩)] "EQ1" false).st = [] :=
  ⟨rfl, rfl, rfl, rfl⟩

/-- C7 amended: `stop(equipment_id)` clears the connector's cooperative stop
flags and waits up to the 2 s join bound, and the registry entry is removed
regardless of whether the thread exited in time — but a shutdown timeout is
silently ignored: no warning is ever emitted (the code never inspects the
result of `thread.join(timeout=2)`). -/
theorem stop_connector_removes_entry (st : List (String × Conn)) (E : String) (c : Conn)
    (t : Bool) (h : st.lookup E = some c) :
    (stop_connector st E t).ok = true ∧
    (stop_connector st E t).stopped = some ⟨c.ctype, false, false⟩ ∧
    (stop_connector st E t).warnings = [] ∧
    (stop_connector st E t).st.lookup E = none := by
  rw [stop_core st E c t h]
  refine ⟨rfl, rfl, rfl, ?_⟩
  refine lookup_none_of_not_mem _ E ?_
  intro hE
  rcases List.mem_map.mp hE with ⟨p, hp, hfst⟩
  have := List.of_mem_filter hp
  rw [hfst] at this
  simp at this

/-- C9: for every raw data map, the emitted reading always contains the keys
`equipment_id` and `timestamp`, but a key of that name in the data map
overwrites the connector-assigned value (`reading.update(data)` runs after
the metadata is written), so the emitted `equipment_id` may differ from the
connector's own. -/
theorem process_reading_metadata (eqid ts : String) (d : List (String × PVal))
    (hd : (d.map Prod.fst).Nodup) :
    ((process_reading eqid ts d).lookup "equipment_id"
        = (d.lookup "equipment_id").or (some (.str eqid))) ∧
    ((process_reading eqid ts d).lookup "timestamp"
        = (d.lookup "timestamp").or (some (.str ts))) ∧
    ((process_reading eqid ts d).lookup "equipment_id").isSome = true ∧
    ((process_reading eqid ts d).lookup "timestamp").isSome = true := by
  have e1 : process_reading eqid ts d = d.foldl (fun m p => dupdate m p.1 p.2)
      [("equipment_id", .str eqid), ("timestamp", .str ts)] := rfl
  have i1 : ([("equipment_id", PVal.str eqid), ("timestamp", PVal.str ts)]).lookup
      "equipment_id" = some (.str eqid) := rfl
  have i2 : ([("equipment_id", PVal.str eqid), ("timestamp", PVal.str ts)]).lookup
      "timestamp" = some (.str ts) := rfl
  have h1 := lookup_foldl_dupdate d
    [("equipment_id", PVal.str eqid), ("timestamp", PVal.str ts)] "equipment_id" hd
  have h2 := lookup_foldl_dupdate d
    [("equipment_id", PVal.str eqid), ("timestamp", PVal.str ts)] "timestamp" hd
  rw [i1] at h1
  rw [i2] at h2
  refine ⟨e1 ▸ h1, e1 ▸ h2, ?_, ?_⟩
  · rw [e1, h1]
    cases d.lookup "equipment_id" <;> rfl
  · rw [e1, h2]
    cases d.lookup "timestamp" <;> rfl

theorem process_reading_metadata_witness :
    (([("equipment_id", PVal.str "EQ2"), ("temperature", PVal.num 70)].map Prod.fst).Nodup) ∧
    (((process_reading "EQ1" "T0" [("equipment_id", .str "EQ2"), ("temperature", .num 70)]).lookup
        "equipment_id"
        = ([("equipment_id", PVal.str "EQ2"), ("temperature", PVal.num 70)].lookup
            "equipment_id").or (some (.str "EQ1"))) ∧
     ((process_reading "EQ1" "T0" [("equipment_id", .str "EQ2"), ("temperature", .num 70)]).lookup
        "timestamp"
        = ([("equipment_id", PVal.str "EQ2"), ("temperature", PVal.num 70)].lookup
            "timestamp").or (some (.str "T0"))) ∧
     ((process_reading "EQ1" "T0"
        [("equipment_id", .str "EQ2"), ("temperature", .num 70)]).lookup
        "equipment_id").isSome = true ∧
     ((process_reading "EQ1" "T0"
        [("equipment_id", .str "EQ2"), ("temperature", .num 70)]).lookup
        "timestamp").isSome = true) :=
  ⟨by decide, process_reading_metadata "EQ1" "T0"
    [("equipment_id", .str "EQ2"), ("temperature", .num 70)] (by decide)⟩

/-- C3 counterexample: at `temperature = 90`, `vibration = 6` the fallback's
`remaining_days = int(30 * (1 - failure_probability))` evaluates in binary64
to `int(5.999999999999998)` = 5, not the 6 the claim states. -/
theorem rule_fallback_days_not_six :
    (run_prediction_fallback 90 6).2.1 = 5 ∧ ¬ (run_prediction_fallback 90 6).2.1 = 6 := by
  decide

/-- C3 amended: with no trained model, `temperature = 90`, `vibration = 6`
deterministically yields failure probability the double 0.8
(`fpRound (4/5)`), `recommended_action = "maintenance"`, and
`remaining_useful_life_days = 5` — one less than the real-arithmetic
`⌊30·(1−0.8)⌋ = 6` because `30 * (1 - 0.8)` rounds to
`5.999999999999998` in binary64 and `int()` truncates. -/
theorem rule_fallback_at_90_6 :
    run_prediction_fallback 90 6 = (fpRound (Rat.divInt 4 5), 5, "maintenance") := by
  decide

/-- C2: on a little-endian host (the realistic deployment),
`_decode_ieee(0x447A, 0x0000)` assembles the bit pattern `0x7A440000` —
low byte of each word first — and yields `12845056 · 2^94 ≈ 2.55e35`, not
`1000.0`; the spec's big-endian reconstruction of the same words does give
`1000.0`.  The full holding-register float path emits the same wrong value. -/
theorem decode_ieee_byte_order_bug :
    decode_ieee 0x447A 0x0000 = .num (qmul (qofInt 12845056) (pow2z 94)) ∧
    ¬ decode_ieee 0x447A 0x0000 = .num 1000 ∧
    decode_ieee_bigendian 0x447A 0x0000 = .num 1000 ∧
    decodeField
      { holding := fun _ _ => ⟨false, [0x447A, 0x0000], []⟩,
        input := fun _ _ => ⟨true, [], []⟩,
        coils := fun _ _ => ⟨true, [], []⟩,
        discrete := fun _ _ => ⟨true, [], []⟩ }
      { data_type := "float", count := 2 }
      = .val (.num (qmul (qofInt 12845056) (pow2z 94))) := by
  decide

theorem stop_connector_removes_entry_witness :
    ([("EQ1", (⟨"CSVFileConnector", true, true⟩ : Conn))].lookup "EQ1"
      = some ⟨"CSVFileConnector", true, true⟩) ∧
    ((stop_connector [("EQ1", ⟨"CSVFileConnector", true, true⟩)] "EQ1" false).ok = true ∧
     (stop_connector [("EQ1", ⟨"CSVFileConnector", true, true⟩)] "EQ1" false).stopped
        = some ⟨"CSVFileConnector", false, false⟩ ∧
     (stop_connector [("EQ1", ⟨"CSVFileConnector", true, true⟩)] "EQ1" false).warnings = [] ∧
     (stop_connector [("EQ1", ⟨"CSVFileConnector", true, true⟩)] "EQ1" false).st.lookup "EQ1"
        = none) :=
  ⟨rfl, stop_connector_removes_entry [("EQ1", ⟨"CSVFileConnector", true, true⟩)] "EQ1"
    ⟨"CSVFileConnector", true, true⟩ false rfl⟩

/-! ## Modbus partial-decode lemmas -/

/-- The value the decode loop stores for key `k`, per the first config entry
named `k` (none when that entry is skipped or `k` is not configured). -/
def decodedValue (dev : Device) : List (String × RegSpec) → String → Option PVal
  | [], _ => none
  | (n, s) :: rest, k =>
    if n = k then
      match decodeField dev s with
      | .val v => some v
      | _ => none
    else decodedValue dev rest k

theorem decodedValue_none_of_not_mem (dev : Device) (cfg : List (String × RegSpec))
    (k : String) (h : ¬ k ∈ cfg.map Prod.fst) : decodedValue dev cfg k = none := by
  induction cfg with
  | nil => rfl
  | cons p t ih =>
    rcases p with ⟨n, s⟩
    have hn : ¬ n = k := by
      intro hk
      exact h (by simp [hk])
    have ht : ¬ k ∈ t.map Prod.fst := by
      intro hk
      exact h (by simp [hk])
    rw [decodedValue, if_neg hn]
    exact ih ht

theorem dupdate_of_not_mem (m : List (String × PVal)) (k : String) (v : PVal)
    (h : ¬ k ∈ m.map Prod.fst) : dupdate m k v = m ++ [(k, v)] := by
  unfold dupdate
  rw [if_neg]
  intro hany
  rcases List.any_eq_true.mp hany with ⟨p, hp, hdec⟩
  exact h (List.mem_map.mpr ⟨p, hp, of_decide_eq_true hdec⟩)

theorem decodedValue_of_mem (dev : Device) (cfg : List (String × RegSpec)) (n : String)
    (s : RegSpec) (hkeys : (cfg.map Prod.fst).Nodup) (hp : (n, s) ∈ cfg) :
    decodedValue dev cfg n
      = (match decodeField dev s with | .val v => some v | _ => none) := by
  induction cfg with
  | nil => cases hp
  | cons q t ih =>
    rcases q with ⟨m, s0⟩
    have hkeys2 : (m :: t.map Prod.fst).Nodup := hkeys
    have hk := List.nodup_cons.mp hkeys2
    rcases List.mem_cons.mp hp with heq | hp2
    · injection heq with h1 h2
      subst h1
      subst h2
      rw [decodedValue, if_pos rfl]
    · have hm : ¬ m = n := fun h => hk.1 (h ▸ List.mem_map.mpr ⟨(n, s), hp2, rfl⟩)
      rw [decodedValue, if_neg hm]
      exact ih hk.2 hp2

theorem modbusFieldsAux_spec (dev : Device) (cfg : List (String × RegSpec))
    (acc : List (String × PVal))
    (hnodup : (acc.map Prod.fst ++ cfg.map Prod.fst).Nodup)
    (hnofatal : ∀ p ∈ cfg, decodeField dev p.2 ≠ .fatal) :
    ∃ flds, modbusFieldsAux dev cfg acc = .ok flds ∧ (flds.map Prod.fst).Nodup ∧
      ∀ k, flds.lookup k = (decodedValue dev cfg k).or (acc.lookup k) := by
  induction cfg generalizing acc with
  | nil =>
    exact ⟨acc, rfl, by simpa using hnodup, fun k => rfl⟩
  | cons p rest ih =>
    rcases p with ⟨n, s⟩
    have hsplit : (List.map Prod.fst acc ++ n :: List.map Prod.fst rest).Nodup := by
      simpa using hnodup
    obtain ⟨hacc, hcons, hdisj⟩ := List.nodup_append.mp hsplit
    have hn_not_acc : ¬ n ∈ acc.map Prod.fst :=
      fun hmem => hdisj hmem (List.mem_cons_self n _)
    have hn_not_rest : ¬ n ∈ rest.map Prod.fst := (List.nodup_cons.mp hcons).1
    cases hdec : decodeField dev s with
    | fatal => exact absurd hdec (hnofatal (n, s) (List.mem_cons_self _ _))
    | skip =>
      have hsub : (acc.map Prod.fst ++ rest.map Prod.fst).Nodup :=
        hsplit.sublist ((List.sublist_cons_self n (rest.map Prod.fst)).append_left _)
      obtain ⟨flds, hok, hnd, hlk⟩ :=
        ih acc hsub (fun p hp => hnofatal p (List.mem_cons_of_mem _ hp))
      refine ⟨flds, ?_, hnd, fun k => ?_⟩
      · simp only [modbusFieldsAux, hdec]
        exact hok
      · by_cases hk : n = k
        · rw [hlk k, decodedValue, if_pos hk, hdec,
            decodedValue_none_of_not_mem dev rest k (hk ▸ hn_not_rest)]
        · rw [hlk k, decodedValue, if_neg hk]
    | val v =>
      have hupd : dupdate acc n v = acc ++ [(n, v)] := dupdate_of_not_mem acc n v hn_not_acc
      have hsub : ((acc ++ [(n, v)]).map Prod.fst ++ rest.map Prod.fst).Nodup := by
        rw [List.map_append, List.append_assoc]
        simpa using hsplit
      obtain ⟨flds, hok, hnd, hlk⟩ :=
        ih (acc ++ [(n, v)]) hsub (fun p hp => hnofatal p (List.mem_cons_of_mem _ hp))
      refine ⟨flds, ?_, hnd, fun k => ?_⟩
      · simp only [modbusFieldsAux, hdec, hupd]
        exact hok
      · by_cases hk : n = k
        · subst hk
          rw [hlk n, decodedValue, if_pos rfl, hdec,
            decodedValue_none_of_not_mem dev rest n hn_not_rest,
            lookup_append_or, lookup_none_of_not_mem acc n hn_not_acc,
            List.lookup_cons, beq_self_eq_true]
          rfl
        · have hk2 : k ≠ n := fun h => hk h.symm
          have hsingle : ([(n, v)] : List (String × PVal)).lookup k = none := by
            rw [List.lookup_cons, beq_false_of_ne hk2]
            rfl
          rw [hlk k, decodedValue, if_neg hk, lookup_append_or, hsingle, Option.or_none]

/-- C4: for every Modbus `_read_once` in which no register hits the fatal
empty-payload path, a per-register decode failure (error result or unknown
register kind) skips only that named field: the reading is still emitted
(never dropped, even with zero decoded fields), each successfully decoded
register appears in it with its decoded value, and each skipped register is
absent. -/
theorem modbus_partial_decode (eqid ts : String) (dev : Device)
    (cfg : List (String × RegSpec))
    (hkeys : (cfg.map Prod.fst).Nodup)
    (hmeta : ∀ p ∈ cfg, p.1 ≠ "equipment_id" ∧ p.1 ≠ "timestamp")
    (hnofatal : ∀ p ∈ cfg, decodeField dev p.2 ≠ .fatal) :
    ∃ r, modbus_read_once eqid ts dev cfg = .ok r ∧
      ∀ p ∈ cfg,
        (∀ v, decodeField dev p.2 = .val v → r.lookup p.1 = some v) ∧
        (decodeField dev p.2 = .skip → r.lookup p.1 = none) := by
  obtain ⟨flds, hok, hnd, hlk⟩ :=
    modbusFieldsAux_spec dev cfg [] (by simpa using hkeys) hnofatal
  refine ⟨process_reading eqid ts flds, ?_, ?_⟩
  · unfold modbus_read_once
    rw [hok]
    rfl
  · intro p hp
    rcases p with ⟨n, s⟩
    obtain ⟨hne1, hne2⟩ := hmeta (n, s) hp
    have hinit : ([("equipment_id", PVal.str eqid),
        ("timestamp", PVal.str ts)]).lookup n = none := by
      rw [List.lookup_cons, beq_false_of_ne hne1, List.lookup_cons, beq_false_of_ne hne2]
      rfl
    have hr : (process_reading eqid ts flds).lookup n = flds.lookup n := by
      have hfold := lookup_foldl_dupdate flds
        [("equipment_id", PVal.str eqid), ("timestamp", PVal.str ts)] n hnd
      rw [show process_reading eqid ts flds = flds.foldl (fun m p => dupdate m p.1 p.2)
        [("equipment_id", PVal.str eqid), ("timestamp", PVal.str ts)] from rfl,
        hfold, hinit, Option.or_none]
    have hdv := decodedValue_of_mem dev cfg n s hkeys hp
    constructor
    · intro v hv
      rw [hr, hlk n, hdv, hv]
      rfl
    · intro hv
      rw [hr, hlk n, hdv, hv]
      rfl

/-- A device whose holding registers answer with the two words of the
spec's float32 test vector, all other kinds failing. -/
def demoDevice : Device :=
  { holding := fun _ _ => ⟨false, [0x447A, 0x0000], []⟩,
    input := fun _ _ => ⟨true, [], []⟩,
    coils := fun _ _ => ⟨true, [], []⟩,
    discrete := fun _ _ => ⟨true, [], []⟩ }

/-- One well-formed float32 holding register plus one malformed entry whose
register kind is unknown. -/
def demoCfg : List (String × RegSpec) :=
  [("temp", { data_type := "float", count := 2 }),
   ("bad", { rtype := "bogus" })]

theorem modbus_partial_decode_witness :
    ((demoCfg.map Prod.fst).Nodup) ∧
    (∀ p ∈ demoCfg, p.1 ≠ "equipment_id" ∧ p.1 ≠ "timestamp") ∧
    (∀ p ∈ demoCfg, decodeField demoDevice p.2 ≠ .fatal) ∧
    (∃ r, modbus_read_once "EQ1" "T0" demoDevice demoCfg = .ok r ∧
      ∀ p ∈ demoCfg,
        (∀ v, decodeField demoDevice p.2 = .val v → r.lookup p.1 = some v) ∧
        (decodeField demoDevice p.2 = .skip → r.lookup p.1 = none)) :=
  ⟨by decide, by decide, by decide,
    modbus_partial_decode "EQ1" "T0" demoDevice demoCfg (by decide) (by decide) (by decide)⟩

/-- A device whose holding registers return a single word. -/
def oneRegDevice : Device :=
  { holding := fun _ _ => ⟨false, [0x447A], []⟩,
    input := fun _ _ => ⟨false, [], []⟩,
    coils := fun _ _ => ⟨false, [], []⟩,
    discrete := fun _ _ => ⟨false, [], []⟩ }

/-- C5 counterexample: a `float` RegisterSpec violating the count ≥ 2
requirement (one returned register) is not skipped: the fall-through
`else` branch stores `registers[0] * scaling`, so the reading carries
`"temp" = 17530.0` — refuting "no value is produced for that name". -/
theorem short_float_register_not_skipped :
    decodeField oneRegDevice
      { rtype := "holding", address := 0, count := 1, data_type := "float", scaling := 1 }
      = .val (.num 17530) ∧
    modbus_read_once "EQ1" "T0" oneRegDevice [("temp", { data_type := "float", count := 1 })]
      = .ok [("equipment_id", .str "EQ1"), ("timestamp", .str "T0"),
          ("temp", .num 17530)] := by
  constructor
  · decide
  · rfl

/-- C5 amended: a `float32`/`int32` RegisterSpec whose read returns fewer
than two registers is not skipped with a warning.  With exactly one returned
word the code falls through to the default branch and stores
`registers[0] * scaling` under the field's name; with an empty payload
`registers[0]` raises `IndexError`, aborting the entire read — neither path
is the claimed warn-and-skip. -/
theorem short_register_decode (dev : Device) (s : RegSpec) (x : Nat)
    (hty : s.rtype = "holding")
    (hdt : s.data_type = "float" ∨ s.data_type = "int32")
    (herr : (dev.holding s.address s.count).isError = false) :
    ((dev.holding s.address s.count).registers = [x] →
      decodeField dev s = .val (pvscale (.num (qofInt (Int.ofNat x))) s.scaling)) ∧
    ((dev.holding s.address s.count).registers = [] → decodeField dev s = .fatal) := by
  constructor
  · intro hx
    simp [decodeField, readRegister, hty, herr, hx]
  · intro hx
    simp [decodeField, readRegister, hty, herr, hx]

theorem short_register_decode_witness :
    ((oneRegDevice.holding 0 1).isError = false) ∧
    (((oneRegDevice.holding 0 1).registers = [0x447A] →
      decodeField oneRegDevice
        { rtype := "holding", address := 0, count := 1, data_type := "float", scaling := 1 }
        = .val (pvscale (.num (qofInt (Int.ofNat 0x447A))) 1)) ∧
     ((oneRegDevice.holding 0 1).registers = [] →
      decodeField oneRegDevice
        { rtype := "holding", address := 0, count := 1, data_type := "float", scaling := 1 }
        = .fatal)) :=
  ⟨rfl, short_register_decode oneRegDevice
    { rtype := "holding", address := 0, count := 1, data_type := "float", scaling := 1 }
    0x447A rfl (Or.inl rfl) rfl⟩

/-- C6 counterexample: `CSVFileConnector._read_loop` wraps nothing in
`try`/`except`, so a persistence-sink failure raised from the registered
callback escapes the loop iteration — and with it the background polling
thread — instead of being logged and skipped. -/
theorem csv_loop_callback_escape :
    csv_loop_iter "EQ1" "T0" (fun _ => .error "sink failure")
      [[("temperature", .num 70)]] 0
      = .error (.callback "sink failure") := rfl

/-- C6 amended: the API (and Modbus/OPC-UA) polling loops catch every
exception of an iteration and continue, but the CSV replay loop does not:
a callback failure (e.g. a persistence-sink error) propagates out of its
iteration and terminates the polling task. -/
theorem loop_error_isolation
    (res : Except String (List (List (String × PVal))))
    (eqid ts msg : String) (cb : List (String × PVal) → Except String Unit)
    (row : List (String × PVal)) (rest : List (List (String × PVal)))
    (hcb : cb (process_reading eqid ts row) = .error msg) :
    api_loop_iter res = .ok () ∧
    csv_loop_iter eqid ts cb (row :: rest) 0 = .error (.callback msg) := by
  constructor
  · cases res <;> rfl
  · show (match cb (process_reading eqid ts row) with
      | .error e => Except.error (LoopErr.callback e)
      | .ok _ => Except.ok ((0 + 1) % (row :: rest).length)) = .error (.callback msg)
    rw [hcb]

theorem loop_error_isolation_witness :
    ((fun _ : List (String × PVal) => (Except.error "db down" : Except String Unit))
        (process_reading "EQ1" "T0" [("temperature", PVal.num 70)]) = .error "db down") ∧
    (api_loop_iter (.error "boom") = .ok () ∧
     csv_loop_iter "EQ1" "T0" (fun _ => .error "db down")
        [[("temperature", .num 70)]] 0 = .error (.callback "db down")) :=
  ⟨rfl, loop_error_isolation (.error "boom") "EQ1" "T0" "db down"
    (fun _ => .error "db down") [("temperature", PVal.num 70)] [] rfl⟩

/-- C8: the rolling features use a window of 5 with `min_periods = 1`; for
the series `[1,2,3,4,5]` the rolling mean at index 4 is `3.0` and the
rolling standard deviation at index 0 is `0.0` (the single-sample `NaN`
filled with 0) — and in general a single-sample window always yields
standard deviation 0. -/
theorem rolling_window_features :
    (rolling_mean_col [1, 2, 3, 4, 5]).map (fun c => c.get? 4) = some (some 3) ∧
    (rolling_std_col [1, 2, 3, 4, 5]).map (fun c => c.get? 0) = some (some (some 0)) ∧
    ∀ (x : ℚ) (xs : List ℚ), rolling_std (x :: xs) 0 = some 0 := by
  refine ⟨by decide, by decide, fun x xs => rfl⟩

/-- C10: the CSV replay loop body is safe exactly when the file has at
least one data row: an in-bounds row index never hits the out-of-bounds
path and the modulo advance stays in bounds, while an empty file makes the
very first iteration fail with an `IndexError`, killing the background
task. -/
theorem csv_replay_totality (eqid ts : String)
    (cb : List (String × PVal) → Except String Unit)
    (rows : List (List (String × PVal))) (i : Nat) :
    (i < rows.length →
      csv_loop_iter eqid ts cb rows i ≠ .error .indexOutOfBounds ∧
      ∀ j, csv_loop_iter eqid ts cb rows i = .ok j → j < rows.length) ∧
    (rows = [] → csv_loop_iter eqid ts cb rows 0 = .error .indexOutOfBounds) := by
  constructor
  · intro hi
    have hget : rows.get? i = some (rows.get ⟨i, hi⟩) := List.get?_eq_get hi
    have heq : csv_loop_iter eqid ts cb rows i
        = match cb (process_reading eqid ts (rows.get ⟨i, hi⟩)) with
          | .error e => .error (.callback e)
          | .ok _ => .ok ((i + 1) % rows.length) := by
      unfold csv_loop_iter
      rw [hget]
    rw [heq]
    cases hcb : cb (process_reading eqid ts (rows.get ⟨i, hi⟩)) with
    | error e =>
      refine ⟨fun h => ?_, fun j hj => ?_⟩
      · cases h
      · cases hj
    | ok u =>
      refine ⟨fun h => ?_, fun j hj => ?_⟩
      · cases h
      · injection hj with hj2
        rw [← hj2]
        exact Nat.mod_lt _ (Nat.lt_of_le_of_lt (Nat.zero_le i) hi)
  · intro h
    subst h
    rfl

theorem csv_replay_totality_witness :
    (0 < ([[("temperature", PVal.num 70)]] :
        List (List (String × PVal))).length) ∧
    (csv_loop_iter "EQ1" "T0" (fun _ => .ok ()) [[("temperature", .num 70)]] 0
        ≠ .error .indexOutOfBounds ∧
      ∀ j, csv_loop_iter "EQ1" "T0" (fun _ => .ok ()) [[("temperature", .num 70)]] 0 = .ok j →
        j < ([[("temperature", PVal.num 70)]] : List (List (String × PVal))).length) :=
  ⟨by decide,
    (csv_replay_totality "EQ1" "T0" (fun _ => .ok ()) [[("temperature", .num 70)]] 0).1
      (by decide)⟩

end PredMaint
